import Mathlib

/-!
Shallow embedding of the ld47 time-loop simulation core (src/game.rs,
src/level.rs, src/constants.rs) and verification of the frozen claims.

Modelling conventions:
* `f32` values are modelled as exact rationals `ℚ`.  Every arithmetic
  operation the simulation performs on positions and timers (addition,
  subtraction, multiplication by constants, comparison, flooring,
  non-negative fmod) is exact on the rationals involved, except for
  `Vector2D::normalize` of a diagonal direction, whose factor `1/sqrt 2`
  is irrational; it is modelled by the fixed rational constant
  `invSqrt2` standing for the (dyadic rational) `f32` value.  No claim
  depends on the numeric value of that constant.
* Rust `Vec` is `List`, grown at the back; `HashMap<Point2D<i32>, T>`
  (keys unique) is a `List T` of objects carrying their own `position`
  key, looked up with `find?`; Rust's hash iteration order is modelled
  as list order (no claim depends on the order).
* Fallible operations (`unwrap`, `expect`, out-of-bounds `Vec`
  indexing) return `Option`, with `none` for a panic.
* Sprites, textures, colors and everything consumed only by `draw` are
  omitted; the cosmetic `animation_timer` / `bob_timer` fields are kept
  because `update` mutates them.
-/

namespace LD47

/-- 2-D point with `f32` coordinates, modelled exactly (`euclid::Point2D<f32>`
and `Vector2D<f32>`). -/
structure Pt where
  x : ℚ
  y : ℚ
deriving DecidableEq

/-- Integer grid cell (`euclid::Point2D<i32>`). -/
structure Cell where
  cx : ℤ
  cy : ℤ
deriving DecidableEq

def Pt.add (p v : Pt) : Pt := ⟨p.x + v.x, p.y + v.y⟩

def Pt.sub (p q : Pt) : Pt := ⟨p.x - q.x, p.y - q.y⟩

/-- Squared euclidean length.  The source compares `length() < r` with
`r` and both coordinates exact; this is equivalent to `len2 < r * r`. -/
def Pt.len2 (p : Pt) : ℚ := p.x * p.x + p.y * p.y

/-- `point2(p.x.floor() as i32, p.y.floor() as i32)`. -/
def Pt.cell (p : Pt) : Cell := ⟨Rat.floor p.x, Rat.floor p.y⟩

/-- constants.rs: `TICK_DT = 1. / 60.` -/
def TICK_DT : ℚ := 1 / 60

/-- game.rs: `GHOST_SPEED = 5.` -/
def GHOST_SPEED : ℚ := 5

/-- game.rs: `LOOP_TICKS = 600` (time loops over 600 ticks, 10 seconds). -/
def LOOP_TICKS : Nat := 600

/-- game.rs: `GHOST_ANIMATION_TIME = 0.5` -/
def GHOST_ANIMATION_TIME : ℚ := 1 / 2

/-- Fixed rational constant standing for the `f32` value of `1 / sqrt 2`
used by `Vector2D::normalize` on a diagonal direction. -/
def invSqrt2 : ℚ := 70710678 / 100000000

/-- Rust `%` on `f32` (fmod); all uses in the source have non-negative
operands, where fmod agrees with the floor-based remainder. -/
def fmodQ (a b : ℚ) : ℚ := a - b * (Rat.floor (a / b) : ℤ)

/-- level.rs `Tile`. -/
inductive Tile
  | Floor
  | Wall
deriving DecidableEq

/-- level.rs `Level`: the tile grid and the spawn pose.  The
construction-time object maps (buttons, doors, teleporters, bulb
spawns, machine cell) are consumed by `Game::new` to build the live
objects and are carried directly by `Game` here. -/
structure Level where
  tiles : List (List Tile)
  playerStart : Pt
deriving DecidableEq

/-- level.rs `Level::tile`: bounds-checked lookup, out-of-range or
non-positive coordinates read as `Wall`. -/
def Level.tile (l : Level) (x y : ℤ) : Tile :=
  if 0 < x ∧ 0 < y then
    match l.tiles[y.toNat]? with
    | some row => (row[x.toNat]?).getD Tile.Wall
    | none => Tile.Wall
  else Tile.Wall

/-- game.rs `Controls`: the coalesced 4-bit held-direction state. -/
structure Controls where
  up : Bool
  left : Bool
  down : Bool
  right : Bool
deriving DecidableEq

/-- The all-false `Controls::default()`. -/
def Controls.default : Controls := ⟨false, false, false, false⟩

/-- game.rs `Door` (sprite omitted).  The source field `open` is a Lean
keyword and is rendered `isOpen`, matching the accessor `Door::is_open`. -/
structure Door where
  position : Cell
  isOpen : Bool
deriving DecidableEq

/-- `doors.get(&cell)` on the `HashMap<Point2D<i32>, Door>`. -/
def doorAt (doors : List Door) (c : Cell) : Option Door :=
  doors.find? (fun d => d.position = c)

/-- Direction accumulated from the control flags in `Ghost::update`
(up: y += 1, down: y -= 1, right: x += 1, left: x -= 1). -/
def dirOf (c : Controls) : ℤ × ℤ :=
  ((if c.right then 1 else 0) + (if c.left then -1 else 0),
   (if c.up then 1 else 0) + (if c.down then -1 else 0))

/-- `dir.normalize() * GHOST_SPEED * TICK_DT` for a non-zero direction
with components in `{-1, 0, 1}`: cardinal directions have length 1
(normalize is exact), diagonals are scaled by `invSqrt2`. -/
def normStep (d : ℤ × ℤ) : Pt :=
  let n : ℚ := if d.1 ≠ 0 ∧ d.2 ≠ 0 then invSqrt2 else 1
  ⟨(d.1 : ℚ) * n * GHOST_SPEED * TICK_DT, (d.2 : ℚ) * n * GHOST_SPEED * TICK_DT⟩

/-- The collision test of `Ghost::update` on the candidate position:
wall at the floored cell, or a closed door there. -/
def collides (level : Level) (doors : List Door) (p : Pt) : Bool :=
  let t := p.cell
  decide (level.tile t.cx t.cy = Tile.Wall) ||
    (((doorAt doors t).map (fun d => !d.isOpen)).getD false)

/-- game.rs `Ghost` (sprites omitted): append-only control log and
position history plus the animation timer. -/
structure Ghost where
  controls : List Controls
  positions : List Pt
  animationTimer : ℚ
deriving DecidableEq

/-- `Ghost::new` (image arguments omitted: they only build sprites). -/
def Ghost.new (position : Pt) : Ghost :=
  { controls := [], positions := [position], animationTimer := 0 }

/-- `Ghost::teleport`: overwrite the last position entry;
`last_mut().unwrap()` panics on an empty history. -/
def Ghost.teleport (g : Ghost) (destination : Pt) : Option Ghost :=
  match g.positions with
  | [] => none
  | _ :: _ => some { g with positions := g.positions.dropLast ++ [destination] }

/-- `Ghost::reset`. -/
def Ghost.reset (g : Ghost) (position : Pt) : Ghost :=
  { g with positions := [position], animationTimer := 0 }

/-- `Ghost::push_controls`. -/
def Ghost.pushControls (g : Ghost) (c : Controls) : Ghost :=
  { g with controls := g.controls ++ [c] }

/-- `Ghost::position`: `positions.get(tick + 1)` with the last entry as
fallback; `none` models the `expect("positions vec is empty")` panic. -/
def Ghost.position (g : Ghost) (tick : Nat) : Option Pt :=
  match g.positions[tick + 1]? with
  | some p => some p
  | none => g.positions.getLast?

/-- The unconditional animation-timer advance at the end of
`Ghost::update` (wraps modulo the frame-cycle duration). -/
def Ghost.stepAnim (g : Ghost) : Ghost :=
  { g with animationTimer := fmodQ (g.animationTimer + TICK_DT) GHOST_ANIMATION_TIME }

/-- `Ghost::update`: consume `controls_log[tick]` if present, move with
single-step collision rejection, always advance the animation timer.
The `positions.last()` read (which the source performs inside both
movement branches) is hoisted in front of the branch; it panics on an
empty history in either branch exactly as the source does. -/
def Ghost.update (g : Ghost) (tick : Nat) (level : Level) (doors : List Door) :
    Option Ghost :=
  match g.controls[tick]? with
  | none => some g.stepAnim
  | some c =>
    match g.positions.getLast? with
    | none => none
    | some lastPos =>
      if dirOf c ≠ (0, 0) then
        let newPos := lastPos.add (normStep (dirOf c))
        if collides level doors newPos then
          some (Ghost.stepAnim { g with positions := g.positions ++ [lastPos] })
        else
          some (Ghost.stepAnim { g with positions := g.positions ++ [newPos] })
      else
        some (Ghost.stepAnim { g with positions := g.positions ++ [lastPos] })

/-- game.rs `Button` (sprite omitted). -/
structure Button where
  position : Cell
  connections : List Cell
  active : Bool
deriving DecidableEq

/-- game.rs `Teleporter` (sprite omitted). -/
structure Teleporter where
  position : Cell
  destination : Cell
  activeTimer : ℚ
deriving DecidableEq

/-- `doors.get_mut(&c)` followed by writing the `open` flag; a no-op when
no door is keyed at `c` (keys are unique in the source hash map). -/
def setDoorOpen (doors : List Door) (c : Cell) (v : Bool) : List Door :=
  doors.map (fun d => if d.position = c then { d with isOpen := v } else d)

/-- The `active_timer = 0.5` write of `Teleporter::activate`, applied to
the teleporter keyed at `c`; a no-op when none is. -/
def setTeleporterTimer (ts : List Teleporter) (c : Cell) : List Teleporter :=
  ts.map (fun t => if t.position = c then { t with activeTimer := 1 / 2 } else t)

/-- The occupancy index `players_spatial` as a function from a cell to
the (index-ordered) occupancy list, built by flooring every player's
current position; `cps` is the list of every player's `position(tick)`. -/
def spatialOf (cps : List Pt) (c : Cell) : List Nat :=
  (List.range cps.length).filter (fun i => decide ((cps[i]?).map Pt.cell = some c))

/-- The loop of `Teleporter::activate`: teleport `players[i]` for every
index in the occupancy list, in order; `Vec` indexing out of bounds or
an empty position history panics. -/
def teleportAll (dest : Pt) (idxs : List Nat) (players : List Ghost) :
    Option (List Ghost) :=
  idxs.foldlM
    (fun ps i =>
      match ps[i]? with
      | none => none
      | some g => (g.teleport dest).map (fun g2 => ps.set i g2))
    players

/-- `Teleporter::activate`: set the cosmetic timer to 0.5 and teleport
every occupant of the teleporter's own cell to
`destination + (0.5, 0.5)` (an absent occupancy entry means nobody to
teleport). -/
def Teleporter.activate (t : Teleporter) (spatial : Cell → List Nat)
    (players : List Ghost) : Option (Teleporter × List Ghost) :=
  let dest : Pt := ⟨(t.destination.cx : ℚ) + 1 / 2, (t.destination.cy : ℚ) + 1 / 2⟩
  (teleportAll dest (spatial t.position) players).map
    (fun ps => ({ t with activeTimer := 1 / 2 }, ps))

/-- The teleporter arm of `Button::update` at one connection:
`teleporters.get_mut(connection)` and activate (no-op when absent). -/
def activateTeleporterAt (ts : List Teleporter) (c : Cell)
    (spatial : Cell → List Nat) (players : List Ghost) :
    Option (List Teleporter × List Ghost) :=
  match ts.find? (fun t => t.position = c) with
  | none => some (ts, players)
  | some t =>
    (t.activate spatial players).map
      (fun r => (setTeleporterTimer ts c, r.2))

/-- `Button::update`: contains-key test on the occupancy index; while
occupied, open every connected door and — edge-triggered, only when the
button was previously inactive — activate every connected teleporter;
while unoccupied, deactivate and close every connected door. -/
def Button.update (b : Button) (spatial : Cell → List Nat) (players : List Ghost)
    (doors : List Door) (teleporters : List Teleporter) :
    Option (Button × List Ghost × List Door × List Teleporter) :=
  if spatial b.position ≠ [] then
    (b.connections.foldlM
      (fun (acc : List Ghost × List Door × List Teleporter) c =>
        let ds2 := setDoorOpen acc.2.1 c true
        if b.active then
          some (acc.1, ds2, acc.2.2)
        else
          (activateTeleporterAt acc.2.2 c spatial acc.1).map
            (fun r => (r.2, ds2, r.1)))
      (players, doors, teleporters)).map
      (fun acc => ({ b with active := true }, acc))
  else
    some ({ b with active := false }, players,
      b.connections.foldl (fun ds c => setDoorOpen ds c false) doors,
      teleporters)

/-- `Teleporter::update`: linear decay of the cosmetic timer, clamped at 0. -/
def Teleporter.update (t : Teleporter) : Teleporter :=
  { t with activeTimer := max (t.activeTimer - TICK_DT) 0 }

/-- game.rs `Bulb` (sprites omitted).  `pickedUp` is the source
`picked_up: Option<(usize, usize)>` carrying (pickup tick, player index). -/
structure Bulb where
  positions : List Pt
  bobTimer : ℚ
  pickedUp : Option (Nat × Nat)
  inserted : Bool
deriving DecidableEq

/-- `Bulb::new` (image arguments omitted). -/
def Bulb.new (position : Pt) : Bulb :=
  { positions := [position], bobTimer := 0, pickedUp := none, inserted := false }

/-- `Bulb::position`: same clamped lookup as `Ghost::position`. -/
def Bulb.position (b : Bulb) (tick : Nat) : Option Pt :=
  match b.positions[tick + 1]? with
  | some p => some p
  | none => b.positions.getLast?

/-- `for x in -1..1 { for y in -1..1 }` of the Free branch of
`Bulb::update`: the scanned cell offsets in loop order.  The Rust
ranges exclude 1, so this is the 2x2 block of the bulb's own cell plus
its lower/left neighbours, not a 3x3 block. -/
def scanOffsets : List (ℤ × ℤ) := [(-1, -1), (-1, 0), (0, -1), (0, 0)]

/-- The candidate list `near_players`: the occupancy lists of the
scanned cells, concatenated in loop order. -/
def scannedIdxs (spatial : Cell → List Nat) (c : Cell) : List Nat :=
  scanOffsets.foldl (fun acc o => acc ++ spatial ⟨c.cx + o.1, c.cy + o.2⟩) []

/-- game.rs `TheMachine` (sprites omitted). -/
structure TheMachine where
  position : Pt
  animationTimer : ℚ
  slotsOccupied : Nat
deriving DecidableEq

/-- `TheMachine::add_bulb`. -/
def TheMachine.addBulb (m : TheMachine) : TheMachine :=
  { m with slotsOccupied := m.slotsOccupied + 1 }

/-- `TheMachine::update`. -/
def TheMachine.update (m : TheMachine) : TheMachine :=
  { m with animationTimer := fmodQ (m.animationTimer + TICK_DT) (1 / 4) }

/-- `Bulb::update`.  Carried: append the carrier's current position
(`players[pickup_player]` panics when out of bounds) and become
`inserted` within distance 1 of the machine.  Free: re-append the
current position, advance the bob timer, collect `near_players` from
the scanned neighbourhood of the own floored cell via the occupancy
index, stable-sort them by distance to the bulb and pick up when the
nearest candidate is within 0.5.  The sprite-transform writes (carry
offset, bob height) are omitted; the candidate distances the comparator
and the radius check read are computed once per candidate. -/
def Bulb.update (b : Bulb) (tick : Nat) (spatial : Cell → List Nat)
    (players : List Ghost) (theMachine : TheMachine) : Option Bulb :=
  match b.pickedUp with
  | some (_, pickupPlayer) =>
    match players[pickupPlayer]? with
    | none => none
    | some carrier =>
      match carrier.position tick with
      | none => none
      | some cpos =>
        let b2 : Bulb := { b with positions := b.positions ++ [cpos] }
        match b2.position tick with
        | none => none
        | some p2 =>
          some (if (theMachine.position.sub p2).len2 < 1 then
            { b2 with inserted := true } else b2)
  | none =>
    match b.position tick with
    | none => none
    | some p0 =>
      let b2 : Bulb := { b with positions := b.positions ++ [p0],
                                bobTimer := fmodQ (b.bobTimer + TICK_DT) 1 }
      match b2.position tick with
      | none => none
      | some p1 =>
        match (scannedIdxs spatial p1.cell).mapM (fun i =>
            (players[i]?).bind (fun g =>
              (g.position tick).map (fun pp => (i, (p1.sub pp).len2)))) with
        | none => none
        | some keyed =>
          let sorted := keyed.mergeSort (fun a b => decide (a.2 ≤ b.2))
          match sorted.head? with
          | none => some b2
          | some (i, d2) =>
            some (if d2 < 1 / 4 then { b2 with pickedUp := some (tick, i) } else b2)

/-- `Bulb::reset`: truncate to the spawn entry (`first().unwrap()`
panics on an empty history) and drop the carrier. -/
def Bulb.reset (b : Bulb) : Option Bulb :=
  (b.positions.head?).map (fun p => { b with positions := [p], pickedUp := none })

/-- game.rs `Game` (gl program, buffers and images omitted). -/
structure Game where
  tick : Nat
  rewind : Bool
  clearPlayers : Bool
  paused : Bool
  level : Level
  controls : Controls
  players : List Ghost
  buttons : List Button
  doors : List Door
  teleporters : List Teleporter
  bulbs : List Bulb
  theMachine : TheMachine
deriving DecidableEq

/-- The keys `Game::update` reacts to. -/
inductive Key
  | w
  | a
  | s
  | d
  | escape
  | space
  | r
  | other
deriving DecidableEq

/-- input.rs `InputEvent` (restricted to key events, the only ones the
game consumes). -/
inductive InputEvent
  | keyDown (k : Key)
  | keyUp (k : Key)
deriving DecidableEq

/-- One arm of the input-event match at the top of `Game::update`. -/
def applyInput (g : Game) (e : InputEvent) : Game :=
  match e with
  | .keyDown .w => { g with controls := { g.controls with up := true } }
  | .keyUp .w => { g with controls := { g.controls with up := false } }
  | .keyDown .a => { g with controls := { g.controls with left := true } }
  | .keyUp .a => { g with controls := { g.controls with left := false } }
  | .keyDown .s => { g with controls := { g.controls with down := true } }
  | .keyUp .s => { g with controls := { g.controls with down := false } }
  | .keyDown .d => { g with controls := { g.controls with right := true } }
  | .keyUp .d => { g with controls := { g.controls with right := false } }
  | .keyDown .escape =>
      { g with rewind := false, players := [Ghost.new g.level.playerStart], tick := 0 }
  | .keyDown .space => { g with rewind := true }
  | .keyDown .r => { g with rewind := true, clearPlayers := true }
  | _ => g

/-- The input loop of `Game::update`. -/
def applyInputs (g : Game) (inputs : List InputEvent) : Game :=
  inputs.foldl applyInput g

/-- `paused = false` once any direction flag is held. -/
def pausedRelease (g : Game) : Game :=
  if g.controls.down || g.controls.up || g.controls.left || g.controls.right then
    { g with paused := false }
  else g

/-- The tick / rewind block of `Game::update`: while rewinding, subtract
5 from the tick (saturating `usize` subtraction) and, on hitting 0,
either hard-reset the roster to one fresh agent or archive the roster
(reset every ghost to spawn, tint the just-played one — a sprite write,
whose `last_mut().unwrap()` panic on an empty roster is kept — and push
a fresh recorder), and reset every bulb; otherwise, unless paused,
record this frame's controls on the current (last) player, advance
every player one tick, and increment the tick, triggering a rewind at
the loop length. -/
def tickPhase (g : Game) : Option Game :=
  if g.rewind then
    let tick2 := g.tick - 5
    if tick2 = 0 then
      if g.clearPlayers then
        (g.bulbs.mapM Bulb.reset).map (fun bs =>
          { g with tick := tick2, rewind := false, clearPlayers := false,
                   players := [Ghost.new g.level.playerStart], bulbs := bs })
      else
        match g.players with
        | [] => none
        | _ :: _ =>
          (g.bulbs.mapM Bulb.reset).map (fun bs =>
            { g with tick := tick2, rewind := false,
                     players := (g.players.map (fun p => p.reset g.level.playerStart))
                                  ++ [Ghost.new g.level.playerStart],
                     bulbs := bs })
    else
      some { g with tick := tick2 }
  else if g.paused then some g
  else
    match g.players.getLast? with
    | none => none
    | some lastG =>
      let ps0 := g.players.dropLast ++ [lastG.pushControls g.controls]
      (ps0.mapM (fun p : Ghost => p.update g.tick g.level g.doors)).map (fun ps =>
        let tick2 := g.tick + 1
        { g with players := ps, tick := tick2, rewind := decide (LOOP_TICKS ≤ tick2) })

/-- The button-resolution loop of `Game::update`: update every button in
sequence against the (frozen) occupancy index, threading the door /
teleporter / player effects. -/
def updateButtons (bs : List Button) (spatial : Cell → List Nat)
    (players : List Ghost) (doors : List Door) (teleporters : List Teleporter) :
    Option (List Button × List Ghost × List Door × List Teleporter) :=
  match bs with
  | [] => some ([], players, doors, teleporters)
  | b :: rest =>
    match b.update spatial players doors teleporters with
    | none => none
    | some (b2, ps2, ds2, ts2) =>
      (updateButtons rest spatial ps2 ds2 ts2).map
        (fun r => (b2 :: r.1, r.2))

/-- The bulb-resolution loop plus the `retain`: update every bulb; every
inserted bulb feeds the machine (`add_bulb`) and forces a rewind with
the hard-reset flag; inserted bulbs are then removed from the active
set. -/
def resolveBulbs (g : Game) (spatial : Cell → List Nat) : Option Game :=
  (g.bulbs.mapM (fun b : Bulb => b.update g.tick spatial g.players g.theMachine)).map
    (fun bs2 =>
      let ins := bs2.any (fun b => b.inserted)
      { g with bulbs := bs2.filter (fun b => !b.inserted),
               theMachine := { g.theMachine with slotsOccupied :=
                 g.theMachine.slotsOccupied + (bs2.filter (fun b => b.inserted)).length },
               rewind := g.rewind || ins,
               clearPlayers := g.clearPlayers || ins })

/-- The per-frame resolution pass of `Game::update`, run on every frame
after the tick block: rebuild the occupancy index from every player's
current position at the (already updated) tick, resolve buttons, decay
teleporter timers, resolve bulbs, advance the machine animation. -/
def resolutionPhase (g : Game) : Option Game :=
  match g.players.mapM (fun p => p.position g.tick) with
  | none => none
  | some cps =>
    let spatial := spatialOf cps
    match updateButtons g.buttons spatial g.players g.doors g.teleporters with
    | none => none
    | some (bs2, ps2, ds2, ts2) =>
      let g2 := { g with buttons := bs2, players := ps2, doors := ds2,
                         teleporters := ts2.map Teleporter.update }
      (resolveBulbs g2 spatial).map (fun g3 =>
        { g3 with theMachine := g3.theMachine.update })

/-- `Game::update`: input application, pause release, the tick / rewind
block, then the unconditional resolution pass. -/
def Game.update (g : Game) (inputs : List InputEvent) : Option Game :=
  (tickPhase (pausedRelease (applyInputs g inputs))).bind resolutionPhase

/-! ### Derived definitions used to state the claims -/

/-- Tick-by-tick replay of a control log from a spawn pose: the state a
fresh recorder carrying `log` reaches after `t` applications of
`Ghost::update`, against a fixed level and the door states of each
tick. -/
def replay (spawn : Pt) (log : List Controls) (level : Level)
    (doorsAt : Nat → List Door) : Nat → Option Ghost
  | 0 => some { controls := log, positions := [spawn], animationTimer := 0 }
  | t + 1 => (replay spawn log level doorsAt t).bind (fun g => g.update t level (doorsAt t))

/-- Frame iteration of the tick / rewind block of `Game::update`. -/
def iterTick : Nat → Game → Option Game
  | 0, g => some g
  | k + 1, g => (tickPhase g).bind (iterTick k)

/-- The effect of one `Button::update` on the button itself: `active`
tracks whether the occupancy index has an occupant at the button's
cell. -/
def Button.stepActive (b : Button) (spatial : Cell → List Nat) : Button :=
  { b with active := decide (spatial b.position ≠ []) }

/-- The rising-edge condition under which `Button::update` activates
its connected teleporters: occupied now, and not already `active`. -/
def Button.fires (b : Button) (spatial : Cell → List Nat) : Bool :=
  decide (spatial b.position ≠ []) && !b.active

/-- How many of a run of successive resolution passes (each abstracted
to its occupancy index) satisfy the rising-edge condition, following
the button state through `stepActive`. -/
def buttonFireCount (b : Button) : List (Cell → List Nat) → Nat
  | [] => 0
  | sp :: rest => (if b.fires sp then 1 else 0) + buttonFireCount (b.stepActive sp) rest

/-- Modelled from the spec (claim side only): the full 3x3 neighbourhood
of grid cells centred on `c`, which the specification says the Free
branch of `Bulb::update` scans.  The source scans `scanOffsets`
instead. -/
def neighborhood3x3 (c : Cell) : List Cell :=
  ([(-1, -1), (-1, 0), (-1, 1), (0, -1), (0, 0), (0, 1), (1, -1), (1, 0), (1, 1)] :
      List (ℤ × ℤ)).map (fun o => ⟨c.cx + o.1, c.cy + o.2⟩)

/-! ### Concrete fixtures for counterexamples and witnesses -/

/-- A 3x3 level whose bottom-left corner is walled and whose cells
(1,1), (2,1), (1,2), (2,2) are floor. -/
def lvlA : Level :=
  { tiles := [[Tile.Wall, Tile.Wall, Tile.Wall],
              [Tile.Wall, Tile.Floor, Tile.Floor],
              [Tile.Wall, Tile.Floor, Tile.Floor]],
    playerStart := ⟨3 / 2, 3 / 2⟩ }

/-- An empty level: every tile lookup is `Wall`; no fixture using it
lets any agent consume a movement input. -/
def lvlEmpty : Level := { tiles := [], playerStart := ⟨3 / 2, 3 / 2⟩ }

/-- Only the right-direction key held. -/
def ctrlRight : Controls := ⟨false, false, false, true⟩

/-- A closed door at cell (1,1). -/
def doorClosed11 : Door := { position := ⟨1, 1⟩, isOpen := false }

/-- The centre of cell (1,1). -/
def spawnA : Pt := ⟨3 / 2, 3 / 2⟩

/-- A ghost resting at `spawnA` with an empty control log. -/
def ghostA : Ghost := { controls := [], positions := [spawnA], animationTimer := 0 }

/-- A machine far away from every fixture position. -/
def machFar : TheMachine := { position := ⟨50, 50⟩, animationTimer := 0, slotsOccupied := 0 }

/-- A free bulb near the right edge of cell (0,0). -/
def bulbRightEdge : Bulb :=
  { positions := [⟨9 / 10, 1 / 2⟩], bobTimer := 0, pickedUp := none, inserted := false }

/-- A ghost just across that cell border, in cell (1,0), 0.2 away from
`bulbRightEdge`. -/
def ghostAcrossBorder : Ghost :=
  { controls := [], positions := [⟨11 / 10, 1 / 2⟩], animationTimer := 0 }

/-- A free bulb at the centre of cell (1,1). -/
def bulbCentre : Bulb :=
  { positions := [spawnA], bobTimer := 0, pickedUp := none, inserted := false }

/-- A ghost in the same cell, 0.1 away from `bulbCentre`. -/
def ghostNear : Ghost :=
  { controls := [], positions := [⟨8 / 5, 3 / 2⟩], animationTimer := 0 }

/-- A mid-rewind game state with one agent standing on the cell of an
inactive button. -/
def sRewindButton : Game :=
  { tick := 300, rewind := true, clearPlayers := false, paused := false,
    level := lvlEmpty, controls := Controls.default,
    players := [{ controls := [], positions := [⟨5 / 2, 5 / 2⟩], animationTimer := 0 }],
    buttons := [{ position := ⟨2, 2⟩, connections := [], active := false }],
    doors := [], teleporters := [], bulbs := [], theMachine := machFar }

/-- The state `resolutionPhase` produces from `sRewindButton`: the
button has observed the occupant and activated; the machine animation
advanced one tick. -/
def sRewindButtonAfter : Game :=
  { sRewindButton with
      buttons := [{ position := ⟨2, 2⟩, connections := [], active := true }],
      theMachine := { position := ⟨50, 50⟩, animationTimer := 1 / 60, slotsOccupied := 0 } }

/-- A machine 0.1 away from `spawnA`. -/
def machNear : TheMachine := { position := ⟨8 / 5, 3 / 2⟩, animationTimer := 0, slotsOccupied := 0 }

/-- A bulb carried (since tick 0) by agent 0, resting at `spawnA`. -/
def bulbCarried0 : Bulb :=
  { positions := [spawnA], bobTimer := 0, pickedUp := some (0, 0), inserted := false }

/-- A two-agent mid-loop state (tick 100) in which agent 0 carries
`bulbCarried0` within delivery range of `machNear`. -/
def sDelivery : Game :=
  { tick := 100, rewind := false, clearPlayers := false, paused := false,
    level := lvlEmpty, controls := Controls.default,
    players := [ghostA, ghostA],
    buttons := [], doors := [], teleporters := [], bulbs := [bulbCarried0],
    theMachine := machNear }

/-- A three-agent state in which the bulb is carried by agent index 2
(an echo).  Pressing Escape collapses the roster to one agent without
resetting the bulb. -/
def sEscapeCarried : Game :=
  { tick := 50, rewind := false, clearPlayers := false, paused := true,
    level := lvlEmpty, controls := Controls.default,
    players := [ghostA, ghostA, ghostA],
    buttons := [], doors := [], teleporters := [],
    bulbs := [{ positions := [⟨7 / 2, 7 / 2⟩], bobTimer := 0, pickedUp := some (0, 2),
                inserted := false }],
    theMachine := machFar }

/-- A rewind-entry state: tick at the loop length, rewinding, one
agent, no bulbs. -/
def sLoopEnd : Game :=
  { tick := 600, rewind := true, clearPlayers := false, paused := false,
    level := lvlEmpty, controls := Controls.default,
    players := [ghostA],
    buttons := [], doors := [], teleporters := [], bulbs := [], theMachine := machFar }

/-! ### Shared lemmas about `Ghost` -/

theorem Ghost.update_controls {g g2 : Ghost} {t : Nat} {level : Level} {doors : List Door}
    (h : g.update t level doors = some g2) : g2.controls = g.controls := by
  unfold Ghost.update at h
  split at h
  · simp only [Option.some.injEq] at h
    subst h
    rfl
  · split at h
    · exact absurd h (by simp)
    · split at h
      · dsimp only at h
        split at h <;>
          (simp only [Ghost.stepAnim, Option.some.injEq] at h; subst h; rfl)
      · simp only [Ghost.stepAnim, Option.some.injEq] at h
        subst h
        rfl

theorem Ghost.update_positions_congr (g1 g2 : Ghost) (t : Nat) (level : Level)
    (doors : List Door) (hpos : g1.positions = g2.positions)
    (hctl : g1.controls[t]? = g2.controls[t]?) :
    (g1.update t level doors).map Ghost.positions =
      (g2.update t level doors).map Ghost.positions := by
  unfold Ghost.update
  rw [hctl, hpos]
  cases g2.controls[t]? with
  | none => simp [Ghost.stepAnim, hpos]
  | some c =>
    dsimp only
    cases g2.positions.getLast? with
    | none => rfl
    | some lastPos =>
      dsimp only
      split_ifs <;> simp [Ghost.stepAnim]

theorem replay_controls {spawn : Pt} {log : List Controls} {level : Level}
    {doorsAt : Nat → List Door} {t : Nat} {g : Ghost}
    (h : replay spawn log level doorsAt t = some g) : g.controls = log := by
  induction t generalizing g with
  | zero =>
    simp only [replay, Option.some.injEq] at h
    subst h
    rfl
  | succ t ih =>
    simp only [replay, Option.bind_eq_some] at h
    obtain ⟨g0, hg0, hup⟩ := h
    rw [Ghost.update_controls hup, ih hg0]

/-! ### C1 -/

/-- C1, counterexample: the same control log replayed from the same
spawn yields different position sequences under different door states,
so an agent's position at a tick is not a pure function of the spawn
pose and the control log alone — the collision check of `Ghost::update`
also reads the doors. -/
theorem door_dependence_cex :
    (replay spawnA [ctrlRight] lvlA (fun _ => []) 1).map Ghost.positions ≠
      (replay spawnA [ctrlRight] lvlA (fun _ => [doorClosed11]) 1).map Ghost.positions := by
  with_unfolding_all decide

/-- C1, amended: for a fixed level and a fixed per-tick door-state
environment, the position sequence after `t` replayed ticks is a pure
function of the spawn pose and the consumed log prefix
`controls_log[0..t]` — two logs agreeing on their first `t` entries
replay to identical position sequences, bit for bit (the embedding's
arithmetic is exact). -/
theorem replay_depends_only_on_consumed_log (spawn : Pt) (level : Level)
    (doorsAt : Nat → List Door) (t : Nat) (log1 log2 : List Controls)
    (h : log1.take t = log2.take t) :
    (replay spawn log1 level doorsAt t).map Ghost.positions =
      (replay spawn log2 level doorsAt t).map Ghost.positions := by
  induction t with
  | zero => simp [replay]
  | succ t ih =>
    have ht : log1.take t = log2.take t := by
      have h2 := congrArg (List.take t) h
      simpa [List.take_take, Nat.min_eq_left (Nat.le_succ t)] using h2
    have hprev := ih ht
    have hget : log1[t]? = log2[t]? := by
      have h1 : (log1.take (t + 1))[t]? = log1[t]? := by
        rw [List.getElem?_take]
        simp
      have h2 : (log2.take (t + 1))[t]? = log2[t]? := by
        rw [List.getElem?_take]
        simp
      rw [← h1, ← h2, h]
    cases hr1 : replay spawn log1 level doorsAt t with
    | none =>
      rw [hr1] at hprev
      cases hr2 : replay spawn log2 level doorsAt t with
      | none => simp [replay, hr1, hr2]
      | some g2 => rw [hr2] at hprev; exact absurd hprev (by simp)
    | some g1 =>
      cases hr2 : replay spawn log2 level doorsAt t with
      | none => rw [hr1, hr2] at hprev; exact absurd hprev (by simp)
      | some g2 =>
        have hpos : g1.positions = g2.positions := by
          rw [hr1, hr2] at hprev
          simpa using hprev
        have hctl : g1.controls[t]? = g2.controls[t]? := by
          rw [replay_controls hr1, replay_controls hr2]
          exact hget
        simp only [replay, hr1, hr2, Option.bind_some]
        exact Ghost.update_positions_congr g1 g2 t level (doorsAt t) hpos hctl

/-- C1 witness: two different logs sharing the first entry replay to
the same position sequence after one tick. -/
theorem replay_depends_only_on_consumed_log_witness :
    (replay spawnA [ctrlRight] lvlA (fun _ => []) 1).map Ghost.positions =
      (replay spawnA [ctrlRight, ctrlRight] lvlA (fun _ => []) 1).map Ghost.positions :=
  replay_depends_only_on_consumed_log spawnA lvlA (fun _ => []) 1
    [ctrlRight] [ctrlRight, ctrlRight] (by with_unfolding_all decide)

/-! ### C2 -/

/-- C2: one forward tick of the actively recording agent — push this
frame's controls, then `Ghost::update` at the current tick — appends
exactly one control entry and exactly one position entry (the previous
history is preserved as a prefix), so `len(positions) =
len(controls_log) + 1` is maintained; and when the candidate position
collides, the appended entry is the previous position. -/
theorem active_recorder_appends_one (g : Ghost) (tick : Nat) (c : Controls)
    (level : Level) (doors : List Door) (lastPos : Pt)
    (hlen : g.controls.length = tick)
    (hinv : g.positions.length = g.controls.length + 1)
    (hlast : g.positions.getLast? = some lastPos) :
    ((g.pushControls c).update tick level doors).map (fun x => x.controls.length)
        = some (tick + 1) ∧
    ((g.pushControls c).update tick level doors).map (fun x => x.positions.length)
        = some (tick + 2) ∧
    ((g.pushControls c).update tick level doors).map (fun x => x.positions.take (tick + 1))
        = some g.positions ∧
    (dirOf c ≠ (0, 0) →
      collides level doors (lastPos.add (normStep (dirOf c))) = true →
      ((g.pushControls c).update tick level doors).map Ghost.positions
        = some (g.positions ++ [lastPos])) := by
  have hget : (g.pushControls c).controls[tick]? = some c := by
    simp only [Ghost.pushControls]
    rw [← hlen]
    exact List.getElem?_concat_length g.controls c
  have hplen : g.positions.length = tick + 1 := by rw [hinv, hlen]
  have htake : ∀ p : Pt, (g.positions ++ [p]).take (tick + 1) = g.positions :=
    fun p => List.take_left' hplen
  unfold Ghost.update
  rw [hget]
  simp only [Ghost.pushControls] at hlast ⊢
  rw [hlast]
  dsimp only
  split_ifs with hd hcol
  · refine ⟨?_, ?_, ?_, fun _ _ => ?_⟩ <;>
      simp [Ghost.stepAnim, Ghost.pushControls, hlen, hplen, htake]
  · have : ¬ collides level doors (lastPos.add (normStep (dirOf c))) = true := hcol
    refine ⟨?_, ?_, ?_, fun _ hc2 => absurd hc2 this⟩ <;>
      simp [Ghost.stepAnim, Ghost.pushControls, hlen, hplen, htake]
  · have : ¬ dirOf c ≠ (0, 0) := hd
    refine ⟨?_, ?_, ?_, fun hd2 _ => absurd hd2 this⟩ <;>
      simp [Ghost.stepAnim, Ghost.pushControls, hlen, hplen, htake]

/-- C2 witness: a fresh recorder at `spawnA`, pushing a right-move that
collides with the closed door, appends exactly one control and one
position, re-appending the spawn pose. -/
theorem active_recorder_appends_one_witness :
    ((ghostA.pushControls ctrlRight).update 0 lvlA [doorClosed11]).map
        (fun x => x.controls.length) = some 1 ∧
    ((ghostA.pushControls ctrlRight).update 0 lvlA [doorClosed11]).map
        (fun x => x.positions.length) = some 2 ∧
    ((ghostA.pushControls ctrlRight).update 0 lvlA [doorClosed11]).map Ghost.positions
        = some [spawnA, spawnA] := by
  have h := active_recorder_appends_one ghostA 0 ctrlRight lvlA [doorClosed11] spawnA
    (by with_unfolding_all decide) (by with_unfolding_all decide)
    (by with_unfolding_all decide)
  refine ⟨h.1, h.2.1, ?_⟩
  have h4 := h.2.2.2 (by with_unfolding_all decide) (by with_unfolding_all decide)
  rw [h4]
  with_unfolding_all decide

/-! ### C3 -/

/-- C3: for an agent whose control log has length `n` and whose position
history respects the recording discipline (`len(positions) ≤ n + 1`,
non-empty), `position(t)` for every `t ≥ n` equals `position(n - 1)`
(the final recorded pose), and the lookup never fails. -/
theorem echo_freeze (g : Ghost) (n t : Nat)
    (hn : g.controls.length = n)
    (hne : g.positions ≠ [])
    (hlen : g.positions.length ≤ n + 1)
    (ht : n ≤ t) :
    g.position t = g.position (n - 1) ∧ (g.position t).isSome := by
  have hfroz : g.positions[t + 1]? = none := List.getElem?_eq_none (by omega)
  have hlastt : g.position t = g.positions.getLast? := by
    unfold Ghost.position
    rw [hfroz]
  have hsome : (g.positions.getLast?).isSome := List.getLast?_isSome.mpr hne
  refine ⟨?_, by rw [hlastt]; exact hsome⟩
  rw [hlastt]
  unfold Ghost.position
  rcases Nat.eq_zero_or_pos n with h0 | hpos
  · subst h0
    have h1 : g.positions[0 - 1 + 1]? = none := List.getElem?_eq_none (by
      have := List.length_pos.mpr hne
      omega)
    rw [h1]
  · have hn1 : n - 1 + 1 = n := Nat.succ_pred_eq_of_pos hpos
    rw [hn1]
    rcases Nat.lt_or_ge n g.positions.length with hlt | hge
    · have hlen2 : g.positions.length = n + 1 := by omega
      rw [List.getLast?_eq_getElem? g.positions, hlen2]
      simp only [Nat.add_sub_cancel]
      cases g.positions[n]? <;> rfl
    · rw [List.getElem?_eq_none hge]

/-- C3 witness: a ghost with a 2-entry log and full 3-entry history
holds its final pose at every tick from 2 on. -/
theorem echo_freeze_witness :
    ({ controls := [ctrlRight, ctrlRight], positions := [spawnA, spawnA, ⟨1, 1⟩],
       animationTimer := 0 } : Ghost).position 5
      = ({ controls := [ctrlRight, ctrlRight], positions := [spawnA, spawnA, ⟨1, 1⟩],
           animationTimer := 0 } : Ghost).position 1 ∧
    (({ controls := [ctrlRight, ctrlRight], positions := [spawnA, spawnA, ⟨1, 1⟩],
        animationTimer := 0 } : Ghost).position 5).isSome :=
  echo_freeze _ 2 5 (by with_unfolding_all decide) (by with_unfolding_all decide)
    (by with_unfolding_all decide) (by with_unfolding_all decide)

/-! ### C9 -/

/-- C9: every `Ghost` operation preserves a non-empty position history —
`new` and `reset` create singleton histories, `push_controls` leaves
positions untouched, and on a non-empty history `teleport`, `position`
and `update` all succeed (their `unwrap`/`expect` calls cannot panic)
and leave the history non-empty. -/
theorem ghost_positions_nonempty :
    (∀ p, (Ghost.new p).positions ≠ []) ∧
    (∀ (g : Ghost) p, (g.reset p).positions ≠ []) ∧
    (∀ (g : Ghost) c, (g.pushControls c).positions = g.positions) ∧
    (∀ (g : Ghost) p, g.positions ≠ [] →
      ∃ g2, g.teleport p = some g2 ∧ g2.positions ≠ []) ∧
    (∀ (g : Ghost) t, g.positions ≠ [] → (g.position t).isSome) ∧
    (∀ (g : Ghost) t level doors, g.positions ≠ [] →
      ∃ g2, g.update t level doors = some g2 ∧ g2.positions ≠ []) := by
  refine ⟨fun p => by simp [Ghost.new], fun g p => by simp [Ghost.reset],
    fun g c => rfl, fun g p hne => ?_, fun g t hne => ?_, fun g t level doors hne => ?_⟩
  · refine ⟨{ g with positions := g.positions.dropLast ++ [p] }, ?_, by simp⟩
    unfold Ghost.teleport
    split
    · rename_i heq
      exact absurd heq hne
    · rfl
  · unfold Ghost.position
    cases g.positions[t + 1]? with
    | some q => simp
    | none => exact List.getLast?_isSome.mpr hne
  · unfold Ghost.update
    cases g.controls[t]? with
    | none => exact ⟨_, rfl, by simpa [Ghost.stepAnim] using hne⟩
    | some c =>
      cases hl : g.positions.getLast? with
      | none => exact absurd (List.getLast?_isSome.mpr hne) (by simp [hl])
      | some lastPos =>
        dsimp only
        split_ifs <;> exact ⟨_, rfl, by simp [Ghost.stepAnim]⟩

/-- C9 witness: on the concrete ghost `ghostA` the fallible operations
succeed and keep the history non-empty. -/
theorem ghost_positions_nonempty_witness :
    (∃ g2, ghostA.teleport ⟨2, 2⟩ = some g2 ∧ g2.positions ≠ []) ∧
    (ghostA.position 7).isSome ∧
    (∃ g2, ghostA.update 3 lvlA [] = some g2 ∧ g2.positions ≠ []) :=
  ⟨ghost_positions_nonempty.2.2.2.1 ghostA ⟨2, 2⟩ (by with_unfolding_all decide),
   ghost_positions_nonempty.2.2.2.2.1 ghostA 7 (by with_unfolding_all decide),
   ghost_positions_nonempty.2.2.2.2.2 ghostA 3 lvlA [] (by with_unfolding_all decide)⟩

/-! ### Shared lemmas about `Button::update` -/

theorem Button.update_button {b : Button} {spatial : Cell → List Nat}
    {players : List Ghost} {doors : List Door} {teleporters : List Teleporter}
    {r : Button × List Ghost × List Door × List Teleporter}
    (h : Button.update b spatial players doors teleporters = some r) :
    r.1 = b.stepActive spatial := by
  unfold Button.update at h
  split at h
  · rename_i hoc
    obtain ⟨acc, _, hr⟩ := Option.map_eq_some'.mp h
    subst hr
    simp [Button.stepActive, hoc]
  · rename_i hoc
    simp only [Option.some.injEq] at h
    subst h
    simp only [Button.stepActive]
    simp only [ne_eq, not_not] at hoc
    simp [hoc]

theorem activateTeleporterAt_fst {ts : List Teleporter} {c : Cell}
    {spatial : Cell → List Nat} {players : List Ghost}
    {out : List Teleporter × List Ghost}
    (h : activateTeleporterAt ts c spatial players = some out) :
    out.1 = setTeleporterTimer ts c := by
  unfold activateTeleporterAt at h
  cases hf : ts.find? (fun t => t.position = c) with
  | none =>
    rw [hf] at h
    simp only [Option.some.injEq] at h
    subst h
    have hall := List.find?_eq_none.mp hf
    unfold setTeleporterTimer
    exact ((List.map_congr_left (fun t ht => by
      rw [if_neg (by simpa using hall t ht)]
      rfl)).trans (List.map_id ts)).symm
  | some t =>
    rw [hf] at h
    obtain ⟨r0, _, hout⟩ := Option.map_eq_some'.mp h
    subst hout
    rfl

theorem buttonFoldTeleporters (b : Button) (spatial : Cell → List Nat)
    (conns : List Cell) :
    ∀ (acc out : List Ghost × List Door × List Teleporter),
      conns.foldlM
        (fun (acc : List Ghost × List Door × List Teleporter) c =>
          let ds2 := setDoorOpen acc.2.1 c true
          if b.active then
            some (acc.1, ds2, acc.2.2)
          else
            (activateTeleporterAt acc.2.2 c spatial acc.1).map
              (fun r => (r.2, ds2, r.1)))
        acc = some out →
      (b.active = true → out.1 = acc.1 ∧ out.2.2 = acc.2.2) ∧
      (b.active = false →
        out.2.2 = conns.foldl (fun ts c => setTeleporterTimer ts c) acc.2.2) := by
  induction conns with
  | nil =>
    intro acc out h
    simp only [List.foldlM_nil, Option.pure_def, Option.some.injEq] at h
    subst h
    exact ⟨fun _ => ⟨rfl, rfl⟩, fun _ => rfl⟩
  | cons c cs ih =>
    intro acc out h
    rw [List.foldlM_cons] at h
    obtain ⟨mid, hmid, hrest⟩ := Option.bind_eq_some.mp h
    have hih := ih mid out hrest
    dsimp only at hmid
    cases hact : b.active with
    | true =>
      rw [hact] at hmid
      simp only [if_true, Option.some.injEq] at hmid
      subst hmid
      refine ⟨fun _ => ?_, fun hf => by simp [hact] at hf⟩
      exact ⟨(hih.1 hact).1, (hih.1 hact).2⟩
    | false =>
      rw [hact] at hmid
      simp only [if_false, Bool.false_eq_true] at hmid
      refine ⟨fun ht => by simp [hact] at ht, fun _ => ?_⟩
      obtain ⟨r0, hr0, hmid2⟩ := Option.map_eq_some'.mp hmid
      subst hmid2
      have hts : r0.1 = setTeleporterTimer acc.2.2 c := activateTeleporterAt_fst hr0
      have hout := hih.2 hact
      rw [List.foldl_cons]
      rw [hout, hts]

theorem foldlSetTimer_eq_map (conns : List Cell) :
    ∀ ts : List Teleporter,
      conns.foldl (fun ts c => setTeleporterTimer ts c) ts =
        ts.map (fun t =>
          if t.position ∈ conns then { t with activeTimer := 1 / 2 } else t) := by
  induction conns with
  | nil =>
    intro ts
    simp only [List.foldl_nil, List.not_mem_nil, if_false]
    exact ((List.map_congr_left (fun t _ => rfl)).trans (List.map_id ts)).symm
  | cons c cs ih =>
    intro ts
    rw [List.foldl_cons, ih, setTeleporterTimer, List.map_map]
    refine List.map_congr_left (fun t _ => ?_)
    by_cases h1 : t.position = c
    · by_cases h2 : t.position ∈ cs <;>
        simp [Function.comp, h1, h2, List.mem_cons]
    · by_cases h2 : t.position ∈ cs <;>
        simp [Function.comp, h1, h2, List.mem_cons]

/-! ### C6 -/

/-- C6: `Button::update` drives its connected teleporters edge-triggered.
(1) Per resolution pass: the button's `active` flag becomes exactly the
occupancy of its cell; when the rising-edge condition `fires` (occupied
while inactive) is false the teleporter list is returned unchanged, and
when it is true every connected teleporter comes out activated
(`active_timer = 0.5`).  (2) Over a run of passes all observing the cell
occupied: a button entering the run already active fires zero times, and
a button entering inactive fires exactly once — once per continuous
occupancy interval, however long. -/
theorem button_edge_trigger :
    (∀ (b : Button) (spatial : Cell → List Nat) (players : List Ghost)
        (doors : List Door) (teleporters : List Teleporter)
        (r : Button × List Ghost × List Door × List Teleporter),
      Button.update b spatial players doors teleporters = some r →
        r.1 = b.stepActive spatial ∧
        (b.fires spatial = false → r.2.2.2 = teleporters) ∧
        (b.fires spatial = true → ∀ t ∈ teleporters, t.position ∈ b.connections →
          { t with activeTimer := 1 / 2 } ∈ r.2.2.2)) ∧
    (∀ (b : Button) (sps : List (Cell → List Nat)), b.active = true →
      (∀ sp ∈ sps, sp b.position ≠ []) → buttonFireCount b sps = 0) ∧
    (∀ (b : Button) (sps : List (Cell → List Nat)), b.active = false → sps ≠ [] →
      (∀ sp ∈ sps, sp b.position ≠ []) → buttonFireCount b sps = 1) := by
  have hzero : ∀ (b : Button) (sps : List (Cell → List Nat)), b.active = true →
      (∀ sp ∈ sps, sp b.position ≠ []) → buttonFireCount b sps = 0 := by
    intro b sps
    induction sps generalizing b with
    | nil => intro _ _; rfl
    | cons sp rest ih =>
      intro hact hall
      have hocc : sp b.position ≠ [] := hall sp (List.mem_cons_self sp rest)
      have hfire : b.fires sp = false := by
        simp [Button.fires, hact]
      have hstep : (b.stepActive sp).active = true := by
        simp [Button.stepActive, hocc]
      simp only [buttonFireCount, hfire, Bool.false_eq_true, if_false, Nat.zero_add]
      exact ih (b.stepActive sp) hstep (fun q hq => hall q (List.mem_cons_of_mem sp hq))
  refine ⟨?_, hzero, ?_⟩
  · intro b spatial players doors teleporters r h
    refine ⟨Button.update_button h, ?_, ?_⟩
    · intro hf
      unfold Button.update at h
      split at h
      · rename_i hoc
        have hact : b.active = true := by
          unfold Button.fires at hf
          rw [decide_eq_true hoc] at hf
          simpa using hf
        obtain ⟨acc, hacc, hr⟩ := Option.map_eq_some'.mp h
        subst hr
        exact ((buttonFoldTeleporters b spatial b.connections _ _ hacc).1 hact).2
      · simp only [Option.some.injEq] at h
        subst h
        rfl
    · intro hf t ht hc
      unfold Button.update at h
      have hf2 := hf
      unfold Button.fires at hf2
      rw [Bool.and_eq_true] at hf2
      have hoc : spatial b.position ≠ [] := of_decide_eq_true hf2.1
      have hact : b.active = false := by simpa using hf2.2
      rw [if_pos hoc] at h
      obtain ⟨acc, hacc, hr⟩ := Option.map_eq_some'.mp h
      subst hr
      have hout := (buttonFoldTeleporters b spatial b.connections _ _ hacc).2 hact
      simp only [hout, foldlSetTimer_eq_map]
      exact List.mem_map.mpr ⟨t, ht, by simp [hc]⟩
  · intro b sps hact hne hall
    cases sps with
    | nil => exact absurd rfl hne
    | cons sp rest =>
      have hocc : sp b.position ≠ [] := hall sp (List.mem_cons_self sp rest)
      have hfire : b.fires sp = true := by
        simp [Button.fires, hact, hocc]
      have hstep : (b.stepActive sp).active = true := by
        simp [Button.stepActive, hocc]
      simp only [buttonFireCount, hfire, if_true]
      rw [hzero (b.stepActive sp) rest hstep
        (fun q hq => hall q (List.mem_cons_of_mem sp hq))]

/-- C6 witness: a button whose cell stays occupied over two successive
passes fires exactly once. -/
theorem button_edge_trigger_witness :
    buttonFireCount { position := ⟨2, 2⟩, connections := [], active := false }
      [spatialOf [⟨5 / 2, 5 / 2⟩], spatialOf [⟨5 / 2, 5 / 2⟩]] = 1 :=
  button_edge_trigger.2.2
    { position := ⟨2, 2⟩, connections := [], active := false }
    [spatialOf [⟨5 / 2, 5 / 2⟩], spatialOf [⟨5 / 2, 5 / 2⟩]]
    rfl (List.cons_ne_nil _ _)
    (by
      intro sp hsp
      rcases List.mem_cons.mp hsp with h | hsp2
      · subst h
        with_unfolding_all decide
      · rcases List.mem_cons.mp hsp2 with h | h
        · subst h
          with_unfolding_all decide
        · cases h)

/-! ### Shared lemmas about the tick / rewind block -/

theorem tickPhase_rewind_step {g : Game} (hr : g.rewind = true) (h5 : 5 < g.tick) :
    tickPhase g = some { g with tick := g.tick - 5 } := by
  unfold tickPhase
  rw [hr]
  simp only [if_true]
  rw [if_neg (by omega : ¬(g.tick - 5 = 0))]

theorem tickPhase_rewind_finish {g : Game} {bs : List Bulb} (hr : g.rewind = true)
    (h5 : g.tick ≤ 5) (hps : g.players ≠ [])
    (hbs : g.bulbs.mapM Bulb.reset = some bs) :
    tickPhase g = some { g with
                         tick := 0, rewind := false, clearPlayers := false,
                         players := (if g.clearPlayers then [Ghost.new g.level.playerStart]
                           else (g.players.map (fun p => p.reset g.level.playerStart))
                             ++ [Ghost.new g.level.playerStart]),
                         bulbs := bs } := by
  have htz : g.tick - 5 = 0 := Nat.sub_eq_zero_of_le h5
  unfold tickPhase
  rw [hr]
  simp only [if_true, htz]
  cases hcp : g.clearPlayers with
  | true =>
    simp only [hbs, hcp, Option.map_some']
    simp [hcp]
  | false =>
    cases hpsl : g.players with
    | nil => exact absurd hpsl hps
    | cons p rest =>
      simp only [hbs, hcp, Option.map_some']
      simp [hcp]

theorem iterTick_rewind (k : Nat) : ∀ g : Game, g.rewind = true → 5 * k < g.tick →
    iterTick k g = some { g with tick := g.tick - 5 * k } := by
  induction k with
  | zero =>
    intro g _ _
    simp only [iterTick, Nat.mul_zero, Nat.sub_zero]
  | succ k ih =>
    intro g hr hk
    have h5 : 5 < g.tick := by omega
    simp only [iterTick]
    rw [tickPhase_rewind_step hr h5, Option.some_bind]
    rw [ih { g with tick := g.tick - 5 } hr (by simp only; omega)]
    have harith : g.tick - 5 - 5 * k = g.tick - 5 * (k + 1) := by omega
    simp only [harith]

/-! ### C7 -/

/-- C7: while Rewinding the tick decreases by exactly 5 per frame
(truncated `usize` subtraction: saturating at 0, never negative), and a
rewind entered at tick 600 (the loop length) runs for exactly
`ceil(600 / 5) = 120` frames: for every `k < 120` the first `k` frames
only lower the tick to `600 - 5k` (no other state change — in
particular no archive), and on the 120th frame the tick is exactly 0,
exactly one archive (or hard reset, as the pending flag selects)
happens, and the controller returns to Active (`rewind = false`). -/
theorem rewind_five_per_frame_and_boundary :
    (∀ g g2 : Game, g.rewind = true → tickPhase g = some g2 →
      g2.tick = g.tick - 5) ∧
    (∀ g : Game, g.rewind = true → 5 < g.tick →
      tickPhase g = some { g with tick := g.tick - 5 }) ∧
    (∀ (k : Nat) (g : Game), g.rewind = true → 5 * k < g.tick →
      iterTick k g = some { g with tick := g.tick - 5 * k }) ∧
    (∀ (g : Game) (bs : List Bulb), g.rewind = true → g.tick = LOOP_TICKS →
      g.players ≠ [] → g.bulbs.mapM Bulb.reset = some bs →
      iterTick 120 g = some { g with
                              tick := 0, rewind := false, clearPlayers := false,
                              players := (if g.clearPlayers then [Ghost.new g.level.playerStart]
                                else (g.players.map (fun p => p.reset g.level.playerStart))
                                  ++ [Ghost.new g.level.playerStart]),
                              bulbs := bs }) := by
  refine ⟨?_, fun g hr h5 => tickPhase_rewind_step hr h5, fun k g => iterTick_rewind k g, ?_⟩
  · intro g g2 hr h
    unfold tickPhase at h
    rw [hr] at h
    simp only [if_true] at h
    split at h
    · rename_i htz
      split at h
      · obtain ⟨bs, _, hg2⟩ := Option.map_eq_some'.mp h
        subst hg2
        rfl
      · split at h
        · exact absurd h (by simp)
        · obtain ⟨bs, _, hg2⟩ := Option.map_eq_some'.mp h
          subst hg2
          rfl
    · simp only [Option.some.injEq] at h
      subst h
      rfl
  · intro g bs hr htick hps hbs
    have h119 : iterTick 119 g = some { g with tick := 5 } := by
      have := iterTick_rewind 119 g hr (by rw [htick]; decide)
      rw [this]
      have : g.tick - 5 * 119 = 5 := by rw [htick]; rfl
      rw [this]
    have hsplit : iterTick 120 g = (iterTick 119 g).bind (iterTick 1) := by
      have : ∀ (a b : Nat) (s : Game),
          iterTick (a + b) s = (iterTick a s).bind (iterTick b) := by
        intro a
        induction a with
        | zero => intro b s; simp [iterTick]
        | succ a iha =>
          intro b s
          simp only [Nat.succ_add, iterTick]
          cases tickPhase s with
          | none => simp
          | some s2 => simp only [Option.some_bind]; exact iha b s2
      simpa using this 119 1 g
    rw [hsplit, h119, Option.some_bind]
    have hfin := @tickPhase_rewind_finish { g with tick := 5 } bs hr
      (by simp) hps hbs
    simp only [iterTick]
    rw [hfin]
    rfl

/-- C7 witness: from `sLoopEnd` (tick 600, rewinding, one recorder), 120
frames of the tick block reach tick 0 with the rewind finished and the
roster archived to two agents. -/
theorem rewind_five_per_frame_and_boundary_witness :
    (iterTick 120 sLoopEnd).map
        (fun x => (x.tick, x.rewind, x.clearPlayers, x.players.length))
      = some (0, false, false, 2) := by
  have h := rewind_five_per_frame_and_boundary.2.2.2 sLoopEnd [] rfl rfl
    (List.cons_ne_nil _ _) rfl
  rw [h]
  with_unfolding_all decide

/-! ### Shared lemmas about `Bulb` -/

theorem Bulb.position_push {b c : Bulb} {tick : Nat} {p : Pt}
    (hc : c.positions = b.positions ++ [p])
    (h : b.position tick = some p) : c.position tick = some p := by
  unfold Bulb.position at h ⊢
  rw [hc]
  cases hg : b.positions[tick + 1]? with
  | some q =>
    rw [hg] at h
    have hq : q = p := by simpa using h
    subst hq
    have hlt : tick + 1 < b.positions.length := by
      by_contra hcon
      rw [List.getElem?_eq_none (by omega)] at hg
      cases hg
    rw [List.getElem?_append, if_pos hlt, hg]
  | none =>
    rw [hg] at h
    have hge : b.positions.length ≤ tick + 1 := by
      by_contra hcon
      rw [List.getElem?_eq_getElem (by omega)] at hg
      cases hg
    rcases Nat.eq_or_lt_of_le hge with heq | hlt
    · rw [← heq, List.getElem?_concat_length]
    · have hnone : (b.positions ++ [p])[tick + 1]? = none := by
        rw [List.getElem?_eq_none]
        simp only [List.length_append, List.length_singleton]
        omega
      rw [hnone, List.getLast?_concat]

/-! ### Shared lemmas about the resolution pass -/

theorem updateButtons_buttons (bs : List Button) (spatial : Cell → List Nat) :
    ∀ (players : List Ghost) (doors : List Door) (teleporters : List Teleporter)
      (out : List Button × List Ghost × List Door × List Teleporter),
      updateButtons bs spatial players doors teleporters = some out →
      ∀ i : Nat, out.1[i]? = (bs[i]?).map (fun b : Button => b.stepActive spatial) := by
  induction bs with
  | nil =>
    intro ps ds ts out h i
    simp only [updateButtons, Option.some.injEq] at h
    subst h
    simp
  | cons b rest ih =>
    intro ps ds ts out h i
    unfold updateButtons at h
    cases hb : b.update spatial ps ds ts with
    | none => rw [hb] at h; exact absurd h (by simp)
    | some r =>
      rw [hb] at h
      obtain ⟨r2, hr2, hout⟩ := Option.map_eq_some'.mp h
      subst hout
      cases i with
      | zero =>
        simpa using Button.update_button hb
      | succ i =>
        simpa using ih _ _ _ _ hr2 i

theorem resolveBulbs_buttons {g : Game} {spatial : Cell → List Nat} {g2 : Game}
    (h : resolveBulbs g spatial = some g2) : g2.buttons = g.buttons := by
  unfold resolveBulbs at h
  obtain ⟨bs2, _, hg⟩ := Option.map_eq_some'.mp h
  subst hg
  rfl

/-! ### C5 -/

/-- C5, counterexample: in `sRewindButton` the controller is mid-rewind
(`rewind = true`, tick 300 dropping to 295), yet the very same frame of
`Game::update` rebuilds the occupancy index from the players' current
positions and resolves the buttons against it: the button under the
agent flips from inactive to active during a rewinding frame.  The
index is therefore rebuilt on every frame, not only on
forward-simulated ticks. -/
theorem occupancy_rebuilt_during_rewind_cex :
    (sRewindButton.update []).map
        (fun x => (x.buttons.map Button.active, x.rewind, x.tick))
      = some ([true], true, 295) := by
  with_unfolding_all decide

/-- The button half of the sole-channel property: after a resolution
pass, a button's `active` flag equals exactly the freshly built index's
occupancy test at the button's cell. -/
theorem button_active_iff_occupied (s g2 : Game) (cps : List Pt) (i : Nat)
    (b b2 : Button)
    (h : resolutionPhase s = some g2)
    (hcps : s.players.mapM (fun p : Ghost => p.position s.tick) = some cps)
    (hb : s.buttons[i]? = some b)
    (hb2 : g2.buttons[i]? = some b2) :
    b2.active = decide (spatialOf cps b.position ≠ []) := by
  unfold resolutionPhase at h
  rw [hcps] at h
  dsimp only at h
  cases hub : updateButtons s.buttons (spatialOf cps) s.players s.doors s.teleporters with
  | none => rw [hub] at h; exact absurd h (by simp)
  | some out =>
    rw [hub] at h
    dsimp only at h
    obtain ⟨g3, hg3, hg2⟩ := Option.map_eq_some'.mp h
    subst hg2
    have hbt : g3.buttons = out.1 := resolveBulbs_buttons hg3
    have hidx := updateButtons_buttons s.buttons (spatialOf cps) _ _ _ _ hub i
    rw [hb, Option.map_some'] at hidx
    have hb3 : g3.buttons[i]? = some b2 := hb2
    rw [hbt, hidx] at hb3
    have hstep : b.stepActive (spatialOf cps) = b2 := by simpa using hb3
    rw [← hstep]
    rfl

/-- Pairs produced by an index-keyed `mapM` carry first components drawn
from the index list it traversed. -/
theorem mapM_fst_mem {α : Type} {f : Nat → Option (Nat × α)}
    (hf : ∀ i x, f i = some x → x.1 = i) :
    ∀ (l : List Nat) (ys : List (Nat × α)), l.mapM f = some ys →
      ∀ y ∈ ys, y.1 ∈ l := by
  intro l
  induction l with
  | nil =>
    intro ys h y hy
    simp only [List.mapM_nil, Option.pure_def, Option.some.injEq] at h
    subst h
    cases hy
  | cons i rest ih =>
    intro ys h y hy
    rw [List.mapM_cons] at h
    obtain ⟨x, hx, h2⟩ := Option.bind_eq_some.mp h
    obtain ⟨xs, hxs, h3⟩ := Option.bind_eq_some.mp h2
    simp only [Option.pure_def, Option.some.injEq] at h3
    subst h3
    rcases List.mem_cons.mp hy with hyx | hmem
    · have h1 : y.1 = i := by rw [hyx]; exact hf i x hx
      rw [h1]
      exact List.mem_cons_self _ _
    · exact List.mem_cons_of_mem _ (ih xs hxs y hmem)

/-- C5, amended: the occupancy index is rebuilt by `resolutionPhase` on
every frame — `Game::update` runs it after the tick block whether
rewinding or not — by flooring every player's current position, and it
is the sole channel through which button and item resolution observe
agent presence: (1) after the pass a button's `active` flag equals
exactly the freshly built index's occupancy test at its cell; (2) a
Free bulb can only record a carrier index drawn from the index's
occupancy lists of its scanned cells; and (3) when the index reports
those cells empty the bulb stays Free, no matter where the agents
actually stand. -/
theorem occupancy_index_sole_channel :
    (∀ (s g2 : Game) (cps : List Pt) (i : Nat) (b b2 : Button),
      resolutionPhase s = some g2 →
      s.players.mapM (fun p : Ghost => p.position s.tick) = some cps →
      s.buttons[i]? = some b → g2.buttons[i]? = some b2 →
      b2.active = decide (spatialOf cps b.position ≠ [])) ∧
    (∀ (b : Bulb) (tick : Nat) (spatial : Cell → List Nat) (players : List Ghost)
        (m : TheMachine) (p1 : Pt) (b2 : Bulb) (t0 j : Nat),
      b.pickedUp = none → b.position tick = some p1 →
      Bulb.update b tick spatial players m = some b2 →
      b2.pickedUp = some (t0, j) → j ∈ scannedIdxs spatial p1.cell) ∧
    (∀ (b : Bulb) (tick : Nat) (spatial : Cell → List Nat) (players : List Ghost)
        (m : TheMachine) (p1 : Pt) (b2 : Bulb),
      b.pickedUp = none → b.position tick = some p1 →
      scannedIdxs spatial p1.cell = [] →
      Bulb.update b tick spatial players m = some b2 →
      b2.pickedUp = none) := by
  have hcarrier : ∀ (b : Bulb) (tick : Nat) (spatial : Cell → List Nat)
      (players : List Ghost) (m : TheMachine) (p1 : Pt) (b2 : Bulb) (t0 j : Nat),
      b.pickedUp = none → b.position tick = some p1 →
      Bulb.update b tick spatial players m = some b2 →
      b2.pickedUp = some (t0, j) → j ∈ scannedIdxs spatial p1.cell := by
    intro b tick spatial players m p1 b2 t0 j hfree hp1 h hpk2
    unfold Bulb.update at h
    rw [hfree] at h
    dsimp only at h
    rw [hp1] at h
    dsimp only at h
    have hb2pos : Bulb.position { positions := b.positions ++ [p1],
                                  bobTimer := fmodQ (b.bobTimer + TICK_DT) 1,
                                  pickedUp := none,
                                  inserted := b.inserted } tick = some p1 :=
      Bulb.position_push rfl hp1
    rw [hb2pos] at h
    dsimp only at h
    cases hkeyed : (scannedIdxs spatial p1.cell).mapM (fun i =>
        (players[i]?).bind (fun g : Ghost =>
          (g.position tick).map (fun pp => (i, (p1.sub pp).len2)))) with
    | none => rw [hkeyed] at h; exact absurd h (by simp)
    | some keyed =>
      rw [hkeyed] at h
      dsimp only at h
      have hperm := List.mergeSort_perm keyed (fun a b : Nat × ℚ => decide (a.2 ≤ b.2))
      cases hms : keyed.mergeSort (fun a b : Nat × ℚ => decide (a.2 ≤ b.2)) with
      | nil =>
        rw [hms] at h
        simp only [List.head?_nil, Option.some.injEq] at h
        subst h
        exact absurd hpk2 (by simp)
      | cons hd tl =>
        obtain ⟨i0, d2⟩ := hd
        rw [hms] at h
        simp only [List.head?_cons] at h
        by_cases hlt : d2 < 1 / 4
        · rw [if_pos hlt] at h
          simp only [Option.some.injEq] at h
          subst h
          simp only [Option.some.injEq, Prod.mk.injEq] at hpk2
          obtain ⟨-, hj⟩ := hpk2
          subst hj
          have hmem : (i0, d2) ∈ keyed := (hperm.mem_iff).mp
            (by rw [hms]; exact List.mem_cons_self _ _)
          have hfst : ∀ (i : Nat) (x : Nat × ℚ),
              ((players[i]?).bind (fun g : Ghost =>
                (g.position tick).map (fun pp => (i, (p1.sub pp).len2)))) = some x →
              x.1 = i := by
            intro i x hx
            obtain ⟨g, hg, hx2⟩ := Option.bind_eq_some.mp hx
            obtain ⟨pp, hpp, hx3⟩ := Option.map_eq_some'.mp hx2
            subst hx3
            rfl
          exact mapM_fst_mem hfst _ _ hkeyed (i0, d2) hmem
        · rw [if_neg hlt] at h
          simp only [Option.some.injEq] at h
          subst h
          exact absurd hpk2 (by simp)
  refine ⟨fun s g2 cps i b b2 h hcps hb hb2 =>
      button_active_iff_occupied s g2 cps i b b2 h hcps hb hb2,
    hcarrier, ?_⟩
  intro b tick spatial players m p1 b2 hfree hp1 hscan h
  cases hps2 : b2.pickedUp with
  | none => rfl
  | some pr =>
    obtain ⟨t0, j⟩ := pr
    have hj := hcarrier b tick spatial players m p1 b2 t0 j hfree hp1 h hps2
    rw [hscan] at hj
    exact absurd hj (List.not_mem_nil j)

/-- C5 witness: the button half applied to the concrete mid-rewind
state — the button at cell (2,2) comes out of the pass with `active`
equal to the freshly built index's occupancy at (2,2) — and the item
half applied to the concrete pickup of `bulbCentre` by `ghostNear`: the
recorded carrier index 0 is drawn from the index's scanned occupancy
lists. -/
theorem occupancy_index_sole_channel_witness :
    (({ position := ⟨2, 2⟩, connections := [], active := true } : Button).active
      = decide (spatialOf [⟨5 / 2, 5 / 2⟩] (⟨2, 2⟩ : Cell) ≠ [])) ∧
    (0 : Nat) ∈ scannedIdxs (spatialOf [⟨8 / 5, 3 / 2⟩]) (Pt.cell spawnA) := by
  constructor
  · exact occupancy_index_sole_channel.1 sRewindButton sRewindButtonAfter
      [⟨5 / 2, 5 / 2⟩] 0
      { position := ⟨2, 2⟩, connections := [], active := false }
      { position := ⟨2, 2⟩, connections := [], active := true }
      (by with_unfolding_all decide) (by with_unfolding_all decide)
      (by with_unfolding_all decide) (by with_unfolding_all decide)
  · exact occupancy_index_sole_channel.2.1 bulbCentre 0 (spatialOf [⟨8 / 5, 3 / 2⟩])
      [ghostNear] machFar spawnA
      { positions := [spawnA, spawnA], bobTimer := 1 / 60,
        pickedUp := some (0, 0), inserted := false } 0 0
      (by with_unfolding_all decide) (by with_unfolding_all decide)
      (by with_unfolding_all decide) (by with_unfolding_all decide)

/-! ### C8 -/

/-- C8, counterexample: `sDelivery` (tick 100, two agents, agent 0
carrying the bulb within the delivery radius of the machine).  The
delivery frame removes the bulb, bumps the slot count and forces
Rewinding with the hard-reset flag — but the NEXT frame does not show
the collapsed single-agent state with tick 0: the roster still has 2
agents and the tick is 96 (the rewind has to run down first; the
collapse happens only when it reaches 0). -/
theorem delivery_next_frame_cex :
    (sDelivery.update []).map
        (fun x => (x.bulbs.length, x.theMachine.slotsOccupied, x.rewind, x.clearPlayers))
      = some (0, 1, true, true) ∧
    ((sDelivery.update []).bind (fun x => x.update [])).map
        (fun x => (x.players.length, x.tick))
      = some (2, 96) := by
  constructor <;> with_unfolding_all decide

/-- C8, amended: (1) a Carried bulb's update appends the carrier's
current position and sets `inserted` exactly when the new position is
within distance 1 of the machine; (2) the bulb-resolution pass removes
every inserted bulb from the active set, adds their number to the
machine's `slots_occupied`, and — whenever at least one insertion
happened — forces `rewind` and `clear_players` (the hard-reset flag);
(3) when the pending hard-reset rewind reaches tick 0 (tick ≤ 5 at
entry to the tick block), the roster collapses to exactly one fresh
agent at spawn with the tick reset to 0 and the bulbs reset.  The
collapse thus happens at rewind completion, not on the frame after the
delivery. -/
theorem delivery_checkpoint :
    (∀ (b : Bulb) (tick : Nat) (spatial : Cell → List Nat) (players : List Ghost)
        (m : TheMachine) (t0 i : Nat) (carrier : Ghost) (cpos p2 : Pt) (b2 : Bulb),
      b.pickedUp = some (t0, i) →
      players[i]? = some carrier →
      carrier.position tick = some cpos →
      Bulb.position { b with positions := b.positions ++ [cpos] } tick = some p2 →
      Bulb.update b tick spatial players m = some b2 →
        b2.positions = b.positions ++ [cpos] ∧ b2.pickedUp = b.pickedUp ∧
        b2.inserted = (b.inserted || decide ((m.position.sub p2).len2 < 1))) ∧
    (∀ (g : Game) (spatial : Cell → List Nat) (g2 : Game) (bs2 : List Bulb),
      resolveBulbs g spatial = some g2 →
      g.bulbs.mapM (fun b : Bulb => b.update g.tick spatial g.players g.theMachine)
        = some bs2 →
        g2.bulbs = bs2.filter (fun b => !b.inserted) ∧
        g2.theMachine.slotsOccupied
          = g.theMachine.slotsOccupied + (bs2.filter (fun b => b.inserted)).length ∧
        (bs2.any (fun b => b.inserted) = true →
          g2.rewind = true ∧ g2.clearPlayers = true)) ∧
    (∀ (g : Game) (bs : List Bulb), g.rewind = true → g.clearPlayers = true →
      g.tick ≤ 5 → g.bulbs.mapM Bulb.reset = some bs →
      tickPhase g = some { g with
                           tick := 0, rewind := false, clearPlayers := false,
                           players := [Ghost.new g.level.playerStart],
                           bulbs := bs }) := by
  refine ⟨?_, ?_, ?_⟩
  · intro b tick spatial players m t0 i carrier cpos p2 b2 hpk hcar hcpos hp2 h
    unfold Bulb.update at h
    rw [hpk] at h
    dsimp only at h
    rw [hcar] at h
    dsimp only at h
    rw [hcpos] at h
    dsimp only at h
    have hp2b : Bulb.position { positions := b.positions ++ [cpos],
                                bobTimer := b.bobTimer,
                                pickedUp := some (t0, i),
                                inserted := b.inserted } tick = some p2 := by
      rw [show ({ positions := b.positions ++ [cpos],
                  bobTimer := b.bobTimer,
                  pickedUp := some (t0, i),
                  inserted := b.inserted } : Bulb).position tick
          = ({ b with positions := b.positions ++ [cpos] } : Bulb).position tick from rfl]
      exact hp2
    rw [hp2b] at h
    dsimp only at h
    by_cases hc : (m.position.sub p2).len2 < 1
    · rw [if_pos hc] at h
      simp only [Option.some.injEq] at h
      subst h
      exact ⟨rfl, hpk.symm, by simp [hc]⟩
    · rw [if_neg hc] at h
      simp only [Option.some.injEq] at h
      subst h
      exact ⟨rfl, hpk.symm, by simp [hc]⟩
  · intro g spatial g2 bs2 h hmap
    unfold resolveBulbs at h
    rw [hmap] at h
    simp only [Option.map_some', Option.some.injEq] at h
    subst h
    refine ⟨rfl, rfl, fun hins => ?_⟩
    constructor <;> simp [hins]
  · intro g bs hr hcp h5 hbs
    have htz : g.tick - 5 = 0 := Nat.sub_eq_zero_of_le h5
    unfold tickPhase
    rw [hr]
    simp only [if_true, htz]
    simp only [hbs, hcp, Option.map_some']
    simp [hcp]

/-- C8 witness: the hard-reset completion applied concretely — a
pending hard reset at tick 3 collapses to one fresh agent at spawn,
tick 0, with the carried bulb reset to its spawn entry. -/
theorem delivery_checkpoint_witness :
    tickPhase { sDelivery with tick := 3, rewind := true, clearPlayers := true }
      = some { sDelivery with
               tick := 0, rewind := false, clearPlayers := false,
               players := [Ghost.new lvlEmpty.playerStart],
               bulbs := [bulbCentre] } :=
  delivery_checkpoint.2.2 { sDelivery with tick := 3, rewind := true, clearPlayers := true }
    [bulbCentre] rfl rfl (by with_unfolding_all decide) (by with_unfolding_all decide)

/-! ### C4 -/

/-- C4, counterexample: `bulbRightEdge` sits Free at (0.9, 0.5) in cell
(0,0); `ghostAcrossBorder` stands at (1.1, 0.5) — distance 0.2, well
inside the 0.5 pickup radius — in cell (1,0), a cell of the 3x3
neighbourhood the claim prescribes.  One Free-branch update leaves the
bulb unpicked: the source's `-1..1` loops scan only the 2x2 block of
offsets `{-1, 0}`, which excludes the cell to the right. -/
theorem bulb_scan_misses_neighbor_cex :
    (bulbRightEdge.update 0 (spatialOf [⟨11 / 10, 1 / 2⟩]) [ghostAcrossBorder]
        machFar).map Bulb.pickedUp = some none ∧
    ghostAcrossBorder.position 0 = some ⟨11 / 10, 1 / 2⟩ ∧
    bulbRightEdge.position 0 = some ⟨9 / 10, 1 / 2⟩ ∧
    Pt.cell ⟨11 / 10, 1 / 2⟩ ∈ neighborhood3x3 (Pt.cell ⟨9 / 10, 1 / 2⟩) ∧
    ((⟨9 / 10, 1 / 2⟩ : Pt).sub ⟨11 / 10, 1 / 2⟩).len2 < 1 / 4 := by
  refine ⟨?_, ?_, ?_, ?_, ?_⟩ <;> with_unfolding_all decide

/-- C4, amended: while Free, each tick the bulb scans the 2x2 block of
cells at offsets `{-1, 0}` x `{-1, 0}` from its own cell via the
occupancy index (`scannedIdxs`), orders the occupants of those cells by
distance, and transitions to `Carried(agent, tick)` exactly when the
nearest such occupant is within the fixed pickup radius 0.5: given the
candidate distance list `keyed`, the update picks up iff some candidate
is nearer than 0.5, and the recorded carrier is a nearest candidate
within the radius, tagged with the current tick. -/
theorem bulb_pickup_iff_near (b : Bulb) (tick : Nat) (spatial : Cell → List Nat)
    (players : List Ghost) (m : TheMachine) (p1 : Pt) (keyed : List (Nat × ℚ))
    (hfree : b.pickedUp = none)
    (hp1 : b.position tick = some p1)
    (hkeyed : (scannedIdxs spatial p1.cell).mapM (fun i =>
        (players[i]?).bind (fun g : Ghost =>
          (g.position tick).map (fun pp => (i, (p1.sub pp).len2)))) = some keyed) :
    (Bulb.update b tick spatial players m).map (fun x => x.pickedUp.isSome)
        = some (keyed.any (fun x => decide (x.2 < 1 / 4))) ∧
    (∀ t0 j, (Bulb.update b tick spatial players m).map Bulb.pickedUp
        = some (some (t0, j)) →
      t0 = tick ∧ ∃ dj, (j, dj) ∈ keyed ∧ dj < 1 / 4 ∧ ∀ y ∈ keyed, dj ≤ y.2) := by
  have htrans : ∀ (a b c : Nat × ℚ),
      (decide (a.2 ≤ b.2)) = true → (decide (b.2 ≤ c.2)) = true →
      (decide (a.2 ≤ c.2)) = true :=
    fun a b c hab hbc =>
      decide_eq_true (le_trans (of_decide_eq_true hab) (of_decide_eq_true hbc))
  have htotal : ∀ (a b : Nat × ℚ),
      (decide (a.2 ≤ b.2) || decide (b.2 ≤ a.2)) = true := by
    intro a b
    rcases le_total a.2 b.2 with h | h <;> simp [h]
  have hperm := List.mergeSort_perm keyed (fun a b : Nat × ℚ => decide (a.2 ≤ b.2))
  have hsorted := List.sorted_mergeSort htrans htotal keyed
  unfold Bulb.update
  rw [hfree]
  dsimp only
  rw [hp1]
  dsimp only
  have hb2pos : Bulb.position { positions := b.positions ++ [p1],
                                bobTimer := fmodQ (b.bobTimer + TICK_DT) 1,
                                pickedUp := none,
                                inserted := b.inserted } tick = some p1 :=
    Bulb.position_push rfl hp1
  rw [hb2pos]
  dsimp only
  rw [hkeyed]
  dsimp only
  cases hms : keyed.mergeSort (fun a b : Nat × ℚ => decide (a.2 ≤ b.2)) with
  | nil =>
    have hnil : keyed = [] := by
      rw [hms] at hperm
      exact (hperm.symm.eq_nil)
    subst hnil
    simp only [List.head?_nil]
    refine ⟨rfl, ?_⟩
    intro t0 j hmap
    simp at hmap
  | cons hd tl =>
    obtain ⟨i0, d2⟩ := hd
    simp only [List.head?_cons]
    have hdmem : (i0, d2) ∈ keyed := by
      have hmem : (i0, d2) ∈ keyed.mergeSort (fun a b : Nat × ℚ => decide (a.2 ≤ b.2)) := by
        rw [hms]
        exact List.mem_cons_self _ _
      exact (hperm.mem_iff).mp hmem
    have hmin : ∀ y ∈ keyed, d2 ≤ y.2 := by
      intro y hy
      have hy2 : y ∈ (i0, d2) :: tl := by
        rw [← hms]
        exact (hperm.mem_iff).mpr hy
      rcases List.mem_cons.mp hy2 with h | h
      · rw [h]
      · rw [hms] at hsorted
        exact of_decide_eq_true ((List.pairwise_cons.mp hsorted).1 y h)
    by_cases hlt : d2 < 1 / 4
    · rw [if_pos hlt]
      have hany : keyed.any (fun x => decide (x.2 < 1 / 4)) = true :=
        List.any_eq_true.mpr ⟨(i0, d2), hdmem, decide_eq_true hlt⟩
      refine ⟨by rw [hany]; rfl, ?_⟩
      intro t0 j hmap
      simp only [Option.map_some', Option.some.injEq] at hmap
      obtain ⟨ht0, hj⟩ := Prod.mk.injEq .. ▸ hmap
      exact ⟨ht0.symm, d2, by rw [← hj]; exact hdmem, hlt, hmin⟩
    · rw [if_neg hlt]
      have hany : keyed.any (fun x => decide (x.2 < 1 / 4)) = false := by
        rw [List.any_eq_false]
        intro x hx
        simp only [decide_eq_true_eq]
        exact fun hxlt => hlt (lt_of_le_of_lt (hmin x hx) hxlt)
      refine ⟨by rw [hany]; rfl, ?_⟩
      intro t0 j hmap
      simp at hmap

/-- C4 witness: `ghostNear` stands 0.1 from the Free `bulbCentre` in
the same cell; the update picks the bulb up. -/
theorem bulb_pickup_iff_near_witness :
    (bulbCentre.update 0 (spatialOf [⟨8 / 5, 3 / 2⟩]) [ghostNear] machFar).map
        (fun x => x.pickedUp.isSome) = some true := by
  have h := (bulb_pickup_iff_near bulbCentre 0 (spatialOf [⟨8 / 5, 3 / 2⟩]) [ghostNear]
    machFar spawnA [(0, 1 / 100)] (by with_unfolding_all decide)
    (by with_unfolding_all decide) (by with_unfolding_all decide)).1
  rw [h]
  with_unfolding_all decide

/-! ### C10 -/

/-- C10: refuted — the Escape (cancel/home) handler collapses the
roster to a single fresh agent but does not reset bulb state, so on
that very frame `Bulb::update` runs with a stale carrier index:
in `sEscapeCarried` the bulb is carried by agent 2, the roster shrinks
to length 1, and `players[2]` is out of bounds — the frame panics
(`none`).  The same state without the Escape event updates fine. -/
theorem escape_with_carried_bulb_oob :
    sEscapeCarried.update [InputEvent.keyDown Key.escape] = none ∧
    (sEscapeCarried.update []).isSome = true := by
  constructor <;> with_unfolding_all decide

end LD47
